import Mathlib

/-!
Verification of the subgraph-instance core (`core/src/subgraph/instance.rs`):
construction of a `SubgraphInstance` from a manifest (with all-or-nothing
error aggregation), the instance-level interest predicate, and the
trigger-dispatch fold that threads a mutation list through every matching
runtime host in manifest order.

Modelling choices:
- The futures monad of the Rust source (`future::result`, `Stream::fold`
  with an error-short-circuiting step) is embedded as the `Except String`
  monad: a dispatch either resolves to a final mutation list or to an error.
- Runtime hosts are external capabilities; a host is a record of its
  interest predicates and processing functions, exactly the fields the
  source consumes.
- The block context is a record of the two transaction-lookup functions the
  source consumes (`transaction_for_log`, `transaction_for_call`).
- An instrumented variant of the Log/Call dispatch records, in source
  evaluation order, the transaction lookup, every `matches_log` /
  `matches_call` query, and every processing step actually started; it is
  proved to compute the same result as the plain dispatch.
-/

namespace GraphNode

/-- A runtime host (external capability, one per data source): the interest
predicates and processing operations the core consumes. `process_block`
takes exactly the arguments the source passes at the call site:
`host.process_block(logger.clone(), block.clone(), entity_operations)`. -/
structure RuntimeHost (Logger Block Tx Log Call EOp : Type) where
  matches_log : Log → Bool
  matches_call : Call → Bool
  matches_block : Block → Call → Bool
  process_log : Logger → Block → Tx → Log → List EOp → Except String (List EOp)
  process_call : Logger → Block → Tx → Call → List EOp → Except String (List EOp)
  process_block : Logger → Block → List EOp → Except String (List EOp)

/-- The block context: read-only view of a chain block, exposing transaction
lookup by log and by call. -/
structure EthereumBlock (Log Call Tx : Type) where
  transaction_for_log : Log → Option Tx
  transaction_for_call : Call → Option Tx

/-- One blockchain occurrence to be processed. The `block` variant carries
the associated call payload consumed by `matches_block`. -/
inductive EthereumTrigger (Log Call : Type) where
  | log : Log → EthereumTrigger Log Call
  | call : Call → EthereumTrigger Log Call
  | block : Call → EthereumTrigger Log Call

/-- A subgraph manifest: an identifier plus an ordered list of data sources. -/
structure SubgraphManifest (ManifestId DataSource : Type) where
  id : ManifestId
  data_sources : List DataSource

/-- The external host-builder capability: `build(logger, manifest_id, data_source)`
which may fail per data source. -/
structure RuntimeHostBuilder (Logger ManifestId DataSource H : Type) where
  build : Logger → ManifestId → DataSource → Except String H

/-- A subgraph instance: the ordered collection of runtime hosts, one per
data source, in manifest order. -/
structure SubgraphInstance (Logger Log Call Tx EOp : Type) where
  hosts : List (RuntimeHost Logger (EthereumBlock Log Call Tx) Tx Log Call EOp)

/-- Boolean success test on `Except`, modelling `Result::is_ok`. -/
def exceptIsOk {ε α : Type} : Except ε α → Bool
  | .ok _ => true
  | .error _ => false

/-- Extract the success value, modelling `Result::unwrap` applied after an
`is_ok` partition (as an `Option` to stay total). -/
def exceptOk {ε α : Type} : Except ε α → Option α
  | .ok a => some a
  | .error _ => none

/-- Extract the error value, modelling `Result::unwrap_err` applied after an
`is_ok` partition (as an `Option` to stay total). -/
def exceptErr {ε α : Type} : Except ε α → Option ε
  | .ok _ => none
  | .error e => some e

variable {Logger Log Call Tx EOp ManifestId DataSource : Type}

/-- `SubgraphInstance::from_manifest`: build one host per data source in
manifest order, partition the results into successes and failures; if any
failure exists fail with the aggregated, comma-joined error message,
otherwise construct the instance from the successes in order. -/
def from_manifest (logger : Logger)
    (manifest : SubgraphManifest ManifestId DataSource)
    (host_builder : RuntimeHostBuilder Logger ManifestId DataSource
      (RuntimeHost Logger (EthereumBlock Log Call Tx) Tx Log Call EOp)) :
    Except String (SubgraphInstance Logger Log Call Tx EOp) :=
  let results := manifest.data_sources.map
    (fun d => host_builder.build logger manifest.id d)
  let parts := results.partition exceptIsOk
  if (parts.2).isEmpty then
    Except.ok ⟨(parts.1).filterMap exceptOk⟩
  else
    Except.error ("Errors loading data sources: "
      ++ String.intercalate ", " ((parts.2).filterMap exceptErr))

/-- `SubgraphInstance::matches_log`: true iff any owned host has a handler
for the Ethereum event. -/
def SubgraphInstance.matches_log
    (self : SubgraphInstance Logger Log Call Tx EOp) (log : Log) : Bool :=
  self.hosts.any (fun host => host.matches_log log)

/-- Modelled from the spec: the instance-level interest predicate for call
triggers is declared by the `SubgraphInstance` trait outside this file; per
§4.2 it is "true if any owned Host reports interest in the given trigger". -/
def SubgraphInstance.matches_call
    (self : SubgraphInstance Logger Log Call Tx EOp) (call : Call) : Bool :=
  self.hosts.any (fun host => host.matches_call call)

/-- Modelled from the spec: the instance-level interest predicate for block
triggers is declared by the `SubgraphInstance` trait outside this file; per
§4.2 it is "true if any owned Host reports interest in the given trigger"
(the block predicate may consult the block context and the call payload). -/
def SubgraphInstance.matches_block
    (self : SubgraphInstance Logger Log Call Tx EOp)
    (block : EthereumBlock Log Call Tx) (call : Call) : Bool :=
  self.hosts.any (fun host => host.matches_block block call)

/-- `SubgraphInstance::process_trigger`: per trigger kind, resolve the
transaction (Log/Call only), compute the matching hosts by filtering the
owned hosts in manifest order, then fold the mutation list through each
matching host's processing operation; any error short-circuits. -/
def SubgraphInstance.process_trigger
    (self : SubgraphInstance Logger Log Call Tx EOp) (logger : Logger)
    (block : EthereumBlock Log Call Tx) (trigger : EthereumTrigger Log Call)
    (entity_operations : List EOp) : Except String (List EOp) :=
  match trigger with
  | .log log =>
    let transaction : Except String Tx :=
      match block.transaction_for_log log with
      | some t => Except.ok t
      | none => Except.error "Found no transaction for log"
    let matching_hosts := self.hosts.filter (fun host => host.matches_log log)
    transaction.bind (fun transaction =>
      matching_hosts.foldlM
        (fun entity_operations host =>
          host.process_log logger block transaction log entity_operations)
        entity_operations)
  | .call call =>
    let transaction : Except String Tx :=
      match block.transaction_for_call call with
      | some t => Except.ok t
      | none => Except.error "Found no transaction for call"
    let matching_hosts := self.hosts.filter (fun host => host.matches_call call)
    transaction.bind (fun transaction =>
      matching_hosts.foldlM
        (fun entity_operations host =>
          host.process_call logger block transaction call entity_operations)
        entity_operations)
  | .block call =>
    let matching_hosts :=
      self.hosts.filter (fun host => host.matches_block block call)
    matching_hosts.foldlM
      (fun entity_operations host =>
        host.process_block logger block entity_operations)
      entity_operations

/-- Spec-side description of the dispatch chain (§4.3/§8): the first host
receives the input mutation list, each following host receives exactly the
list returned by the previous one, the result is the last host's output; an
empty chain returns the input unchanged; a failing step fails the chain. -/
def specThread {H : Type} (step : H → List EOp → Except String (List EOp)) :
    List H → List EOp → Except String (List EOp)
  | [], eops => Except.ok eops
  | host :: rest, eops => (step host eops).bind (specThread step rest)

/-- Observable events of one Log/Call dispatch, recorded in the source's
evaluation order: the transaction lookup (with whether it found one), each
interest-predicate query (host position in manifest order and its answer),
and each processing step actually started (host position). -/
inductive DispatchEvent where
  | txLookup : Bool → DispatchEvent
  | matchQuery : Nat → Bool → DispatchEvent
  | processStep : Nat → DispatchEvent
  deriving DecidableEq

/-- Whether an event is the start of a host processing step. -/
def DispatchEvent.isProcessStep : DispatchEvent → Bool
  | .processStep _ => true
  | _ => false

/-- The dispatch fold with events: runs the processing step of each indexed
host in order, threading the mutation list, recording each started step and
stopping at the first error. -/
def foldTrace {H : Type} (step : List EOp → H → Except String (List EOp)) :
    List (Nat × H) → List EOp → Except String (List EOp) × List DispatchEvent
  | [], eops => (Except.ok eops, [])
  | p :: rest, eops =>
    match step eops p.2 with
    | .error e => (Except.error e, [DispatchEvent.processStep p.1])
    | .ok next =>
      let r := foldTrace step rest next
      (r.1, DispatchEvent.processStep p.1 :: r.2)

/-- The Log branch of `process_trigger`, instrumented with events in the
source's evaluation order: the body eagerly looks up the transaction, then
eagerly filters the hosts through `matches_log` (querying every host), and
only when the composed future runs does a failed lookup surface as the
error, otherwise the fold runs the matching hosts. -/
def processLogTrace (self : SubgraphInstance Logger Log Call Tx EOp)
    (logger : Logger) (block : EthereumBlock Log Call Tx) (log : Log)
    (entity_operations : List EOp) :
    Except String (List EOp) × List DispatchEvent :=
  let txOpt := block.transaction_for_log log
  let queries := self.hosts.enum.map
    (fun p => DispatchEvent.matchQuery p.1 (p.2.matches_log log))
  let matching := self.hosts.enum.filter (fun p => p.2.matches_log log)
  match txOpt with
  | none =>
    (Except.error "Found no transaction for log",
      DispatchEvent.txLookup false :: queries)
  | some tx =>
    let folded := foldTrace
      (fun eops host => host.process_log logger block tx log eops)
      matching entity_operations
    (folded.1, DispatchEvent.txLookup true :: queries ++ folded.2)

/-- The Call branch of `process_trigger`, instrumented with events in the
source's evaluation order (same shape as the Log branch, with the call
predicate and lookup). -/
def processCallTrace (self : SubgraphInstance Logger Log Call Tx EOp)
    (logger : Logger) (block : EthereumBlock Log Call Tx) (call : Call)
    (entity_operations : List EOp) :
    Except String (List EOp) × List DispatchEvent :=
  let txOpt := block.transaction_for_call call
  let queries := self.hosts.enum.map
    (fun p => DispatchEvent.matchQuery p.1 (p.2.matches_call call))
  let matching := self.hosts.enum.filter (fun p => p.2.matches_call call)
  match txOpt with
  | none =>
    (Except.error "Found no transaction for call",
      DispatchEvent.txLookup false :: queries)
  | some tx =>
    let folded := foldTrace
      (fun eops host => host.process_call logger block tx call eops)
      matching entity_operations
    (folded.1, DispatchEvent.txLookup true :: queries ++ folded.2)

/-- Pointwise behavioural equality of two hosts: their predicates and
processing steps are equal functions of their inputs. -/
def HostEquiv {Block : Type}
    (h1 h2 : RuntimeHost Logger Block Tx Log Call EOp) : Prop :=
  (∀ l, h1.matches_log l = h2.matches_log l) ∧
  (∀ c, h1.matches_call c = h2.matches_call c) ∧
  (∀ b c, h1.matches_block b c = h2.matches_block b c) ∧
  (∀ lg b t l eops, h1.process_log lg b t l eops = h2.process_log lg b t l eops) ∧
  (∀ lg b t c eops, h1.process_call lg b t c eops = h2.process_call lg b t c eops) ∧
  (∀ lg b eops, h1.process_block lg b eops = h2.process_block lg b eops)

/-- Pointwise behavioural equality of two block contexts. -/
def BlockEquiv (b1 b2 : EthereumBlock Log Call Tx) : Prop :=
  (∀ l, b1.transaction_for_log l = b2.transaction_for_log l) ∧
  (∀ c, b1.transaction_for_call c = b2.transaction_for_call c)

section Fixtures

/-- A block context over `Nat` payloads that resolves every lookup to
transaction `7`. -/
def goodBlock : EthereumBlock Nat Nat Nat :=
  ⟨fun _ => some 7, fun _ => some 7⟩

/-- A block context over `Nat` payloads that resolves no lookup. -/
def badBlock : EthereumBlock Nat Nat Nat :=
  ⟨fun _ => none, fun _ => none⟩

/-- A host interested in every trigger, appending tag 1/2/3 per kind. -/
def hostA : RuntimeHost Nat (EthereumBlock Nat Nat Nat) Nat Nat Nat Nat where
  matches_log := fun _ => true
  matches_call := fun _ => true
  matches_block := fun _ _ => true
  process_log := fun _ _ _ _ eops => Except.ok (eops ++ [1])
  process_call := fun _ _ _ _ eops => Except.ok (eops ++ [2])
  process_block := fun _ _ eops => Except.ok (eops ++ [3])

/-- A second all-interested host, appending tag 4/5/6 per kind. -/
def hostB : RuntimeHost Nat (EthereumBlock Nat Nat Nat) Nat Nat Nat Nat where
  matches_log := fun _ => true
  matches_call := fun _ => true
  matches_block := fun _ _ => true
  process_log := fun _ _ _ _ eops => Except.ok (eops ++ [4])
  process_call := fun _ _ _ _ eops => Except.ok (eops ++ [5])
  process_block := fun _ _ eops => Except.ok (eops ++ [6])

/-- A host interested in nothing. -/
def hostNone : RuntimeHost Nat (EthereumBlock Nat Nat Nat) Nat Nat Nat Nat where
  matches_log := fun _ => false
  matches_call := fun _ => false
  matches_block := fun _ _ => false
  process_log := fun _ _ _ _ eops => Except.ok eops
  process_call := fun _ _ _ _ eops => Except.ok eops
  process_block := fun _ _ eops => Except.ok eops

/-- A host interested in everything whose every processing step fails. -/
def hostFail : RuntimeHost Nat (EthereumBlock Nat Nat Nat) Nat Nat Nat Nat where
  matches_log := fun _ => true
  matches_call := fun _ => true
  matches_block := fun _ _ => true
  process_log := fun _ _ _ _ _ => Except.error "boom"
  process_call := fun _ _ _ _ _ => Except.error "boom"
  process_block := fun _ _ _ => Except.error "boom"

/-- An all-interested host tagged by the data source it was built from. -/
def hostTag (d : Nat) : RuntimeHost Nat (EthereumBlock Nat Nat Nat) Nat Nat Nat Nat where
  matches_log := fun _ => true
  matches_call := fun _ => true
  matches_block := fun _ _ => true
  process_log := fun _ _ _ _ eops => Except.ok (eops ++ [d])
  process_call := fun _ _ _ _ eops => Except.ok (eops ++ [d])
  process_block := fun _ _ eops => Except.ok (eops ++ [d])

/-- A host builder that succeeds on every data source. -/
def okBuilder : RuntimeHostBuilder Nat Nat Nat
    (RuntimeHost Nat (EthereumBlock Nat Nat Nat) Nat Nat Nat Nat) where
  build := fun _ _ d => Except.ok (hostTag d)

/-- A host builder that succeeds on even data sources and fails on odd
ones with a message naming the source. -/
def mixedBuilder : RuntimeHostBuilder Nat Nat Nat
    (RuntimeHost Nat (EthereumBlock Nat Nat Nat) Nat Nat Nat Nat) where
  build := fun _ _ d =>
    if d % 2 == 0 then Except.ok (hostTag d)
    else Except.error ("bad source " ++ toString d)

/-- A three-host instance: two all-interested hosts around an uninterested
one. -/
def instAB : SubgraphInstance Nat Nat Nat Nat Nat := ⟨[hostA, hostNone, hostB]⟩

/-- A three-host instance whose middle matching host fails. -/
def instFail : SubgraphInstance Nat Nat Nat Nat Nat := ⟨[hostA, hostFail, hostB]⟩

/-- A single-host instance. -/
def instOne : SubgraphInstance Nat Nat Nat Nat Nat := ⟨[hostA]⟩

/-- An instance owning zero hosts. -/
def emptyInst : SubgraphInstance Nat Nat Nat Nat Nat := ⟨[]⟩

/-- A block context extensionally equal to `goodBlock` but written
differently. -/
def goodBlock2 : EthereumBlock Nat Nat Nat :=
  ⟨fun _ => some (3 + 4), fun _ => some (3 + 4)⟩

/-- A host extensionally equal to `hostA` but written differently. -/
def hostA2 : RuntimeHost Nat (EthereumBlock Nat Nat Nat) Nat Nat Nat Nat where
  matches_log := fun _ => true
  matches_call := fun _ => true
  matches_block := fun _ _ => true
  process_log := fun _ _ _ _ eops => Except.ok (eops ++ [0 + 1])
  process_call := fun _ _ _ _ eops => Except.ok (eops ++ [0 + 2])
  process_block := fun _ _ eops => Except.ok (eops ++ [0 + 3])

/-- A single-host instance whose host matches nothing. -/
def instNone : SubgraphInstance Nat Nat Nat Nat Nat := ⟨[hostNone]⟩

end Fixtures

section HelperLemmas

/-- The spec-side chain and the source's monadic fold agree. -/
theorem specThread_eq_foldlM {H : Type}
    (step : H → List EOp → Except String (List EOp)) (hs : List H)
    (eops : List EOp) :
    specThread step hs eops = hs.foldlM (fun l h => step h l) eops := by
  induction hs generalizing eops with
  | nil => rfl
  | cons h rest ih =>
    show (step h eops).bind (specThread step rest)
        = (step h eops) >>= (fun l => rest.foldlM (fun l h => step h l) l)
    cases step h eops with
    | error e => rfl
    | ok next => simpa using ih next

/-- If the fold reaches a failing host, the whole fold fails with that
error, whatever hosts follow. -/
theorem foldlM_mid_error {H : Type}
    (step : List EOp → H → Except String (List EOp))
    (pre : List H) (hf : H) (post : List H) (l0 l1 : List EOp) (e : String)
    (h1 : pre.foldlM step l0 = Except.ok l1)
    (h2 : step l1 hf = Except.error e) :
    (pre ++ hf :: post).foldlM step l0 = Except.error e := by
  induction pre generalizing l0 with
  | nil =>
    have hl : l0 = l1 := by
      simpa [List.foldlM, pure, Except.pure] using h1
    subst hl
    show (step l0 hf) >>= (fun x => post.foldlM step x) = Except.error e
    rw [h2]; rfl
  | cons a pre ih =>
    have hstep : (a :: pre).foldlM step l0
        = (step l0 a) >>= (fun x => pre.foldlM step x) := rfl
    rw [hstep] at h1
    cases ha : step l0 a with
    | error e2 => rw [ha] at h1; exact absurd h1 (by simp [Bind.bind, Except.bind])
    | ok next =>
      rw [ha] at h1
      have h1n : pre.foldlM step next = Except.ok l1 := by
        simpa [Bind.bind, Except.bind] using h1
      show (step l0 a) >>= (fun x => (pre ++ hf :: post).foldlM step x)
          = Except.error e
      rw [ha]
      simpa [Bind.bind, Except.bind] using ih next h1n

/-- Filtering two pointwise-related lists with pointwise-agreeing
predicates preserves the relation. -/
theorem forall2_filter {α : Type} {R : α → α → Prop} {p q : α → Bool}
    (hpq : ∀ a b, R a b → p a = q b) :
    ∀ {l1 l2 : List α}, List.Forall₂ R l1 l2 →
      List.Forall₂ R (l1.filter p) (l2.filter q) := by
  intro l1 l2 h
  induction h with
  | nil => exact List.Forall₂.nil
  | cons hab htail ih =>
    rename_i a b as bs
    rw [List.filter_cons, List.filter_cons, ← hpq a b hab]
    cases p a with
    | true => exact List.Forall₂.cons hab ih
    | false => exact ih

/-- Monadic folds over pointwise-related lists with pointwise-agreeing
steps compute the same result. -/
theorem forall2_foldlM {α : Type} {R : α → α → Prop}
    {f g : List EOp → α → Except String (List EOp)}
    (hfg : ∀ a b l, R a b → f l a = g l b) :
    ∀ {l1 l2 : List α}, List.Forall₂ R l1 l2 →
      ∀ l0, l1.foldlM f l0 = l2.foldlM g l0 := by
  intro l1 l2 h
  induction h with
  | nil => intro l0; rfl
  | cons hab htail ih =>
    rename_i a b as bs
    intro l0
    show (f l0 a) >>= (fun x => as.foldlM f x)
        = (g l0 b) >>= (fun x => bs.foldlM g x)
    rw [hfg a b l0 hab]
    cases g l0 b with
    | error e => rfl
    | ok next => simpa [Bind.bind, Except.bind] using ih next

/-- The result component of the dispatch fold with events equals the plain
monadic fold over the hosts without their indices. -/
theorem foldTrace_fst {H : Type}
    (step : List EOp → H → Except String (List EOp))
    (ps : List (Nat × H)) (eops : List EOp) :
    (foldTrace step ps eops).1 = (ps.map Prod.snd).foldlM step eops := by
  induction ps generalizing eops with
  | nil => rfl
  | cons p rest ih =>
    show (foldTrace step (p :: rest) eops).1
        = (step eops p.2) >>= (fun x => (rest.map Prod.snd).foldlM step x)
    cases hp : step eops p.2 with
    | error e => simp [foldTrace, hp, Bind.bind, Except.bind]
    | ok next => simp [foldTrace, hp, Bind.bind, Except.bind, ih]

/-- Filtering an enumerated list by a predicate on the values, then
dropping the indices, is filtering the values. -/
theorem enumFrom_filter_snd {α : Type} (p : α → Bool) :
    ∀ (n : Nat) (l : List α),
      ((List.enumFrom n l).filter (fun x => p x.2)).map Prod.snd = l.filter p := by
  intro n l
  induction l generalizing n with
  | nil => rfl
  | cons a as ih =>
    rw [List.enumFrom, List.filter_cons, List.filter_cons]
    cases p a with
    | true => simpa using ih (n + 1)
    | false => simpa using ih (n + 1)

/-- The instrumented Log dispatch computes the same result as
`process_trigger` on a Log trigger. -/
theorem processLogTrace_fst (self : SubgraphInstance Logger Log Call Tx EOp)
    (logger : Logger) (block : EthereumBlock Log Call Tx) (log : Log)
    (eops : List EOp) :
    (processLogTrace self logger block log eops).1
      = self.process_trigger logger block (EthereumTrigger.log log) eops := by
  simp only [processLogTrace, SubgraphInstance.process_trigger]
  cases htx : block.transaction_for_log log with
  | none => rfl
  | some tx =>
    simp only [foldTrace_fst, List.enum]
    rw [enumFrom_filter_snd (fun host => host.matches_log log) 0 self.hosts]
    rfl

/-- The instrumented Call dispatch computes the same result as
`process_trigger` on a Call trigger. -/
theorem processCallTrace_fst (self : SubgraphInstance Logger Log Call Tx EOp)
    (logger : Logger) (block : EthereumBlock Log Call Tx) (call : Call)
    (eops : List EOp) :
    (processCallTrace self logger block call eops).1
      = self.process_trigger logger block (EthereumTrigger.call call) eops := by
  simp only [processCallTrace, SubgraphInstance.process_trigger]
  cases htx : block.transaction_for_call call with
  | none => rfl
  | some tx =>
    simp only [foldTrace_fst, List.enum]
    rw [enumFrom_filter_snd (fun host => host.matches_call call) 0 self.hosts]
    rfl

end HelperLemmas

section ConstructionLemmas

/-- When every result is a success, the failure side of the partition is
empty. -/
theorem filter_not_ok_nil {H : Type} (build : DataSource → Except String H)
    (f : DataSource → H) :
    ∀ ds : List DataSource, (∀ d ∈ ds, build d = Except.ok (f d)) →
      (ds.map build).filter (not ∘ exceptIsOk) = [] := by
  intro ds
  induction ds with
  | nil => intro _; rfl
  | cons d ds ih =>
    intro h
    have hd := h d (List.mem_cons_self d ds)
    have ihs := ih (fun x hx => h x (List.mem_cons_of_mem d hx))
    have hcond : (not ∘ exceptIsOk) (Except.ok (f d) : Except String H) = false := rfl
    rw [List.map_cons, List.filter_cons, hd, hcond]
    simpa using ihs

/-- When every result is a success, the success side of the partition is the
whole result list. -/
theorem filter_ok_all {H : Type} (build : DataSource → Except String H)
    (f : DataSource → H) :
    ∀ ds : List DataSource, (∀ d ∈ ds, build d = Except.ok (f d)) →
      (ds.map build).filter exceptIsOk = ds.map build := by
  intro ds
  induction ds with
  | nil => intro _; rfl
  | cons d ds ih =>
    intro h
    have hd := h d (List.mem_cons_self d ds)
    have ihs := ih (fun x hx => h x (List.mem_cons_of_mem d hx))
    simp [hd, exceptIsOk, ihs]

/-- Unwrapping an all-successes result list yields the built hosts in
order. -/
theorem filterMap_ok_map {H : Type} (build : DataSource → Except String H)
    (f : DataSource → H) :
    ∀ ds : List DataSource, (∀ d ∈ ds, build d = Except.ok (f d)) →
      (ds.map build).filterMap exceptOk = ds.map f := by
  intro ds
  induction ds with
  | nil => intro _; rfl
  | cons d ds ih =>
    intro h
    have hd := h d (List.mem_cons_self d ds)
    have ihs := ih (fun x hx => h x (List.mem_cons_of_mem d hx))
    simp [hd, exceptOk, ihs]

/-- Restricting to the failure side of the partition before extracting the
error descriptions changes nothing: successes carry no description. -/
theorem filterMap_err_filter {H : Type} :
    ∀ rs : List (Except String H),
      (rs.filter (not ∘ exceptIsOk)).filterMap exceptErr
        = rs.filterMap exceptErr := by
  intro rs
  induction rs with
  | nil => rfl
  | cons r rs ih =>
    rw [List.filter_cons]
    cases r with
    | ok h =>
      have hcond : (not ∘ exceptIsOk) (Except.ok h : Except String H) = false := rfl
      rw [hcond]
      simp only [Bool.false_eq_true, if_false]
      rw [ih, List.filterMap_cons]
      rfl
    | error e =>
      have hcond : (not ∘ exceptIsOk) (Except.error e : Except String H) = true := rfl
      rw [hcond]
      simp only [if_true]
      rw [List.filterMap_cons, List.filterMap_cons]
      show (List.filterMap exceptErr (List.filter (not ∘ exceptIsOk) rs)).cons e
          = (List.filterMap exceptErr rs).cons e
      rw [ih]

end ConstructionLemmas

/-- C3: if the host builder succeeds on every data source, `from_manifest`
succeeds and the instance's host sequence is exactly the built hosts in
manifest order D1..Dn. -/
theorem from_manifest_all_ok
    (logger : Logger) (manifest : SubgraphManifest ManifestId DataSource)
    (host_builder : RuntimeHostBuilder Logger ManifestId DataSource
      (RuntimeHost Logger (EthereumBlock Log Call Tx) Tx Log Call EOp))
    (f : DataSource → RuntimeHost Logger (EthereumBlock Log Call Tx) Tx Log Call EOp)
    (hf : ∀ d ∈ manifest.data_sources,
      host_builder.build logger manifest.id d = Except.ok (f d)) :
    from_manifest logger manifest host_builder
      = Except.ok ⟨manifest.data_sources.map f⟩ := by
  unfold from_manifest
  simp only [List.partition_eq_filter_filter]
  rw [filter_not_ok_nil (fun d => host_builder.build logger manifest.id d) f
      manifest.data_sources hf,
    filter_ok_all (fun d => host_builder.build logger manifest.id d) f
      manifest.data_sources hf,
    filterMap_ok_map (fun d => host_builder.build logger manifest.id d) f
      manifest.data_sources hf]
  rfl

/-- C3 witness: a three-source manifest whose builder succeeds everywhere
constructs the instance with the three built hosts in manifest order. -/
theorem from_manifest_all_ok_witness :
    from_manifest (0 : Nat) (⟨0, [0, 2, 4]⟩ : SubgraphManifest Nat Nat) okBuilder
      = Except.ok ⟨[0, 2, 4].map hostTag⟩ :=
  from_manifest_all_ok 0 ⟨0, [0, 2, 4]⟩ okBuilder hostTag (fun _ _ => rfl)

/-- C4: if the host builder fails on at least one data source,
`from_manifest` fails — no instance is constructed, built hosts are
discarded — with a single aggregated error whose message contains every
individual failure's description, comma-joined in manifest order. -/
theorem from_manifest_some_fail
    (logger : Logger) (manifest : SubgraphManifest ManifestId DataSource)
    (host_builder : RuntimeHostBuilder Logger ManifestId DataSource
      (RuntimeHost Logger (EthereumBlock Log Call Tx) Tx Log Call EOp))
    (d0 : DataSource) (e0 : String)
    (hd0 : d0 ∈ manifest.data_sources)
    (he0 : host_builder.build logger manifest.id d0 = Except.error e0) :
    from_manifest logger manifest host_builder
      = Except.error ("Errors loading data sources: " ++ String.intercalate ", "
          ((manifest.data_sources.map
            (fun d => host_builder.build logger manifest.id d)).filterMap exceptErr))
    ∧ ∀ (d : DataSource) (e : String), d ∈ manifest.data_sources →
        host_builder.build logger manifest.id d = Except.error e →
        e ∈ (manifest.data_sources.map
          (fun d => host_builder.build logger manifest.id d)).filterMap exceptErr := by
  constructor
  · unfold from_manifest
    simp only [List.partition_eq_filter_filter]
    have hmem : (Except.error e0 : Except String
        (RuntimeHost Logger (EthereumBlock Log Call Tx) Tx Log Call EOp))
        ∈ (manifest.data_sources.map
          (fun d => host_builder.build logger manifest.id d)).filter
            (not ∘ exceptIsOk) := by
      refine List.mem_filter.mpr ⟨?_, rfl⟩
      rw [← he0]
      exact List.mem_map_of_mem (fun d => host_builder.build logger manifest.id d) hd0
    have hne : (manifest.data_sources.map
        (fun d => host_builder.build logger manifest.id d)).filter
          (not ∘ exceptIsOk) ≠ [] :=
      List.ne_nil_of_mem hmem
    rw [filterMap_err_filter]
    simp [List.isEmpty_iff, hne]
  · intro d e hd he
    refine List.mem_filterMap.mpr ⟨host_builder.build logger manifest.id d, ?_, ?_⟩
    · exact List.mem_map_of_mem (fun d => host_builder.build logger manifest.id d) hd
    · rw [he]; rfl

/-- C4 witness: a builder failing on sources 1 and 3 of [0, 1, 3] makes
construction fail with the comma-joined, order-stable aggregated message,
which contains both individual descriptions. -/
theorem from_manifest_some_fail_witness :
    from_manifest (0 : Nat) (⟨0, [0, 1, 3]⟩ : SubgraphManifest Nat Nat) mixedBuilder
      = Except.error ("Errors loading data sources: " ++ String.intercalate ", "
          (([0, 1, 3].map (fun d => mixedBuilder.build 0 0 d)).filterMap exceptErr))
    ∧ "bad source 3"
        ∈ ([0, 1, 3].map (fun d => mixedBuilder.build 0 0 d)).filterMap exceptErr := by
  have h := from_manifest_some_fail (0 : Nat)
    (⟨0, [0, 1, 3]⟩ : SubgraphManifest Nat Nat) mixedBuilder 1 "bad source 1"
    (by decide) rfl
  exact ⟨h.1, h.2 3 "bad source 3" (by decide) rfl⟩

/-- C1: for a trigger of any kind, with the transaction resolvable where
one is required, `process_trigger` equals the spec-side chain over exactly
the hosts whose interest predicate matches, and those matching hosts are an
order-preserving subsequence of the manifest-ordered host list: the first
matching host receives the dispatch's input list, each following matching
host receives exactly the list returned by the previous one, and the
dispatch's result is the last one's output. -/
theorem process_trigger_manifest_order_thread
    (self : SubgraphInstance Logger Log Call Tx EOp) (logger : Logger)
    (block : EthereumBlock Log Call Tx) (eops : List EOp) :
    (∀ (log : Log) (t : Tx), block.transaction_for_log log = some t →
      self.process_trigger logger block (EthereumTrigger.log log) eops
        = specThread (fun host => host.process_log logger block t log)
            (self.hosts.filter (fun host => host.matches_log log)) eops
      ∧ (self.hosts.filter (fun host => host.matches_log log)).Sublist self.hosts)
    ∧ (∀ (call : Call) (t : Tx), block.transaction_for_call call = some t →
      self.process_trigger logger block (EthereumTrigger.call call) eops
        = specThread (fun host => host.process_call logger block t call)
            (self.hosts.filter (fun host => host.matches_call call)) eops
      ∧ (self.hosts.filter (fun host => host.matches_call call)).Sublist self.hosts)
    ∧ (∀ call : Call,
      self.process_trigger logger block (EthereumTrigger.block call) eops
        = specThread (fun host => host.process_block logger block)
            (self.hosts.filter (fun host => host.matches_block block call)) eops
      ∧ (self.hosts.filter
          (fun host => host.matches_block block call)).Sublist self.hosts) := by
  refine ⟨fun log t ht => ⟨?_, List.filter_sublist _⟩,
    fun call t ht => ⟨?_, List.filter_sublist _⟩,
    fun call => ⟨?_, List.filter_sublist _⟩⟩
  · simp only [SubgraphInstance.process_trigger]
    rw [ht, specThread_eq_foldlM]
    rfl
  · simp only [SubgraphInstance.process_trigger]
    rw [ht, specThread_eq_foldlM]
    rfl
  · simp only [SubgraphInstance.process_trigger]
    rw [specThread_eq_foldlM]

/-- C1 witness: on a concrete three-host instance with a resolvable log
trigger, the dispatch equals the spec-side chain of the matching hosts in
manifest order, and those hosts are a subsequence of the owned hosts. -/
theorem process_trigger_manifest_order_thread_witness :
    instAB.process_trigger 0 goodBlock (EthereumTrigger.log 5) []
      = specThread (fun host => host.process_log 0 goodBlock 7 5)
          (instAB.hosts.filter (fun host => host.matches_log 5)) []
    ∧ (instAB.hosts.filter (fun host => host.matches_log 5)).Sublist instAB.hosts :=
  (process_trigger_manifest_order_thread instAB 0 goodBlock []).1 5 7 rfl

/-- C2: if the matching host at some position fails during processing, the
dispatch fails with that host's error, whatever matching hosts follow it
(the conclusion holds for every such suffix, which is therefore never
consulted), and no partial mutation list is returned. -/
theorem process_trigger_error_stops
    (self : SubgraphInstance Logger Log Call Tx EOp) (logger : Logger)
    (block : EthereumBlock Log Call Tx) (eops : List EOp) :
    (∀ (log : Log) (t : Tx)
        (pre post : List (RuntimeHost Logger (EthereumBlock Log Call Tx) Tx Log Call EOp))
        (failing : RuntimeHost Logger (EthereumBlock Log Call Tx) Tx Log Call EOp)
        (mid : List EOp) (e : String),
      block.transaction_for_log log = some t →
      self.hosts.filter (fun host => host.matches_log log) = pre ++ failing :: post →
      pre.foldlM (fun ops host => host.process_log logger block t log ops) eops
        = Except.ok mid →
      failing.process_log logger block t log mid = Except.error e →
      self.process_trigger logger block (EthereumTrigger.log log) eops
        = Except.error e)
    ∧ (∀ (call : Call) (t : Tx)
        (pre post : List (RuntimeHost Logger (EthereumBlock Log Call Tx) Tx Log Call EOp))
        (failing : RuntimeHost Logger (EthereumBlock Log Call Tx) Tx Log Call EOp)
        (mid : List EOp) (e : String),
      block.transaction_for_call call = some t →
      self.hosts.filter (fun host => host.matches_call call) = pre ++ failing :: post →
      pre.foldlM (fun ops host => host.process_call logger block t call ops) eops
        = Except.ok mid →
      failing.process_call logger block t call mid = Except.error e →
      self.process_trigger logger block (EthereumTrigger.call call) eops
        = Except.error e)
    ∧ (∀ (call : Call)
        (pre post : List (RuntimeHost Logger (EthereumBlock Log Call Tx) Tx Log Call EOp))
        (failing : RuntimeHost Logger (EthereumBlock Log Call Tx) Tx Log Call EOp)
        (mid : List EOp) (e : String),
      self.hosts.filter (fun host => host.matches_block block call) = pre ++ failing :: post →
      pre.foldlM (fun ops host => host.process_block logger block ops) eops
        = Except.ok mid →
      failing.process_block logger block mid = Except.error e →
      self.process_trigger logger block (EthereumTrigger.block call) eops
        = Except.error e) := by
  refine ⟨?_, ?_, ?_⟩
  · intro log t pre post failing mid e ht hfil hpre hstep
    simp only [SubgraphInstance.process_trigger]
    rw [ht, hfil]
    show (pre ++ failing :: post).foldlM
        (fun ops host => host.process_log logger block t log ops) eops
      = Except.error e
    exact foldlM_mid_error _ pre failing post eops mid e hpre hstep
  · intro call t pre post failing mid e ht hfil hpre hstep
    simp only [SubgraphInstance.process_trigger]
    rw [ht, hfil]
    show (pre ++ failing :: post).foldlM
        (fun ops host => host.process_call logger block t call ops) eops
      = Except.error e
    exact foldlM_mid_error _ pre failing post eops mid e hpre hstep
  · intro call pre post failing mid e hfil hpre hstep
    simp only [SubgraphInstance.process_trigger]
    rw [hfil]
    exact foldlM_mid_error _ pre failing post eops mid e hpre hstep

/-- C2 witness: with hosts [hostA, hostFail, hostB] all matching a
resolvable log, hostA first produces [1], then hostFail fails with "boom",
and the whole dispatch fails with "boom" even though hostB follows. -/
theorem process_trigger_error_stops_witness :
    instFail.process_trigger 0 goodBlock (EthereumTrigger.log 5) []
      = Except.error "boom" :=
  (process_trigger_error_stops instFail 0 goodBlock []).1 5 7
    [hostA] [hostB] hostFail [1] "boom" rfl rfl rfl rfl

/-- C5: a Log or Call trigger whose transaction cannot be resolved makes
`process_trigger` fail with the lookup error, and no host processing
operation is invoked: the instrumented dispatch records no processing
step. -/
theorem process_trigger_no_tx_fails
    (self : SubgraphInstance Logger Log Call Tx EOp) (logger : Logger)
    (block : EthereumBlock Log Call Tx) (eops : List EOp) :
    (∀ log : Log, block.transaction_for_log log = none →
      self.process_trigger logger block (EthereumTrigger.log log) eops
        = Except.error "Found no transaction for log"
      ∧ ((processLogTrace self logger block log eops).2.all
          (fun ev => !(ev.isProcessStep))) = true)
    ∧ (∀ call : Call, block.transaction_for_call call = none →
      self.process_trigger logger block (EthereumTrigger.call call) eops
        = Except.error "Found no transaction for call"
      ∧ ((processCallTrace self logger block call eops).2.all
          (fun ev => !(ev.isProcessStep))) = true) := by
  constructor
  · intro log h
    constructor
    · simp only [SubgraphInstance.process_trigger]
      rw [h]
      rfl
    · have htr : (processLogTrace self logger block log eops).2
          = DispatchEvent.txLookup false
            :: self.hosts.enum.map
              (fun p => DispatchEvent.matchQuery p.1 (p.2.matches_log log)) := by
        simp [processLogTrace, h]
      rw [htr]
      apply List.all_eq_true.mpr
      intro ev hev
      rcases List.mem_cons.mp hev with hev | hev
      · rw [hev]; rfl
      · rcases List.mem_map.mp hev with ⟨p, _, hp⟩
        rw [← hp]; rfl
  · intro call h
    constructor
    · simp only [SubgraphInstance.process_trigger]
      rw [h]
      rfl
    · have htr : (processCallTrace self logger block call eops).2
          = DispatchEvent.txLookup false
            :: self.hosts.enum.map
              (fun p => DispatchEvent.matchQuery p.1 (p.2.matches_call call)) := by
        simp [processCallTrace, h]
      rw [htr]
      apply List.all_eq_true.mpr
      intro ev hev
      rcases List.mem_cons.mp hev with hev | hev
      · rw [hev]; rfl
      · rcases List.mem_map.mp hev with ⟨p, _, hp⟩
        rw [← hp]; rfl

/-- C5 witness: on the three-host instance with an unresolvable log, the
dispatch fails with the lookup error and the instrumented trace records no
processing step. -/
theorem process_trigger_no_tx_fails_witness :
    instAB.process_trigger 0 badBlock (EthereumTrigger.log 5) []
      = Except.error "Found no transaction for log"
    ∧ ((processLogTrace instAB 0 badBlock 5 []).2.all
        (fun ev => !(ev.isProcessStep))) = true :=
  (process_trigger_no_tx_fails instAB 0 badBlock []).1 5 rfl

/-- C6 counterexample: a single-host instance and a log whose transaction
does not resolve — the dispatch fails, yet the host's `matches_log`
predicate was consulted: the source computes the matching hosts eagerly
before the transaction failure surfaces, and the instrumented dispatch
records the interest query alongside the failure. -/
theorem no_tx_still_consults_predicates_counterexample :
    instOne.process_trigger 0 badBlock (EthereumTrigger.log 5) []
      = Except.error "Found no transaction for log"
    ∧ (processLogTrace instOne 0 badBlock 5 []).1
      = Except.error "Found no transaction for log"
    ∧ DispatchEvent.matchQuery 0 true ∈ (processLogTrace instOne 0 badBlock 5 []).2 := by
  refine ⟨rfl, rfl, ?_⟩
  show DispatchEvent.matchQuery 0 true
      ∈ [DispatchEvent.txLookup false, DispatchEvent.matchQuery 0 true]
  exact List.mem_cons_of_mem _ (List.mem_cons_self _ _)

/-- C6 (amended): on a Log trigger with no resolvable transaction the
dispatch fails and no host processing operation is invoked, but each
host's `matches_log` predicate IS evaluated: the matching hosts are
computed eagerly, so the instrumented dispatch records the failed lookup
followed by exactly one interest query per owned host and nothing else. -/
theorem process_trigger_no_tx_queries_hosts
    (self : SubgraphInstance Logger Log Call Tx EOp) (logger : Logger)
    (block : EthereumBlock Log Call Tx) (log : Log) (eops : List EOp)
    (h : block.transaction_for_log log = none) :
    (processLogTrace self logger block log eops).1
      = Except.error "Found no transaction for log"
    ∧ (processLogTrace self logger block log eops).2
      = DispatchEvent.txLookup false
        :: self.hosts.enum.map
          (fun p => DispatchEvent.matchQuery p.1 (p.2.matches_log log)) := by
  constructor <;> simp [processLogTrace, h]

/-- C6 amended-claim witness: on the single-host instance with an
unresolvable log, the dispatch fails and the trace is exactly the failed
lookup plus the one interest query. -/
theorem process_trigger_no_tx_queries_hosts_witness :
    (processLogTrace instOne 0 badBlock 5 []).1
      = Except.error "Found no transaction for log"
    ∧ (processLogTrace instOne 0 badBlock 5 []).2
      = DispatchEvent.txLookup false
        :: instOne.hosts.enum.map
          (fun p => DispatchEvent.matchQuery p.1 (p.2.matches_log 5)) :=
  process_trigger_no_tx_queries_hosts instOne 0 badBlock 5 [] rfl

/-- C7: the instance-level interest predicate of each trigger kind is true
iff some owned host's corresponding predicate is true, and is false for an
instance owning zero hosts. -/
theorem matches_iff_exists_host
    (self : SubgraphInstance Logger Log Call Tx EOp) :
    (∀ log : Log, self.matches_log log = true
      ↔ ∃ host ∈ self.hosts, host.matches_log log = true)
    ∧ (∀ call : Call, self.matches_call call = true
      ↔ ∃ host ∈ self.hosts, host.matches_call call = true)
    ∧ (∀ (block : EthereumBlock Log Call Tx) (call : Call),
      self.matches_block block call = true
      ↔ ∃ host ∈ self.hosts, host.matches_block block call = true)
    ∧ (self.hosts = [] →
      (∀ log : Log, self.matches_log log = false)
      ∧ (∀ call : Call, self.matches_call call = false)
      ∧ (∀ (block : EthereumBlock Log Call Tx) (call : Call),
        self.matches_block block call = false)) := by
  refine ⟨fun log => ?_, fun call => ?_, fun block call => ?_, fun hnil => ?_⟩
  · simp [SubgraphInstance.matches_log, List.any_eq_true]
  · simp [SubgraphInstance.matches_call, List.any_eq_true]
  · simp [SubgraphInstance.matches_block, List.any_eq_true]
  · exact ⟨fun log => by simp [SubgraphInstance.matches_log, hnil],
      fun call => by simp [SubgraphInstance.matches_call, hnil],
      fun block call => by simp [SubgraphInstance.matches_block, hnil]⟩

/-- C7 witness: on the three-host instance the log predicate agrees with
the existential over hosts, and on the zero-host instance it is false. -/
theorem matches_iff_exists_host_witness :
    (instAB.matches_log 5 = true ↔ ∃ host ∈ instAB.hosts, host.matches_log 5 = true)
    ∧ emptyInst.matches_log 5 = false :=
  ⟨(matches_iff_exists_host instAB).1 5,
    ((matches_iff_exists_host emptyInst).2.2.2 rfl).1 5⟩

/-- C8 counterexample: two distinct call payloads, a host whose block
predicate matches both and which actually runs (the result [3] is its
output) — the dispatch results are identical, because the source invokes
`process_block(logger, block, entity_operations)` without the trigger's
call payload, so no host can observe it. -/
theorem process_block_payload_counterexample :
    (0 : Nat) ≠ 1
    ∧ instOne.process_trigger 0 goodBlock (EthereumTrigger.block 0) [] = Except.ok [3]
    ∧ instOne.process_trigger 0 goodBlock (EthereumTrigger.block 0) []
      = instOne.process_trigger 0 goodBlock (EthereumTrigger.block 1) [] :=
  ⟨by decide, rfl, rfl⟩

/-- C8 (amended): for Block triggers each matching host's `process_block`
is invoked with the logger, the shared block context and the current
mutation list only; the trigger's associated call payload is consulted
solely by `matches_block` when selecting hosts, so two Block triggers whose
payloads select the same hosts dispatch identically. -/
theorem process_block_args_no_payload
    (self : SubgraphInstance Logger Log Call Tx EOp) (logger : Logger)
    (block : EthereumBlock Log Call Tx) (eops : List EOp) :
    (∀ call : Call,
      self.process_trigger logger block (EthereumTrigger.block call) eops
        = specThread (fun host => host.process_block logger block)
            (self.hosts.filter (fun host => host.matches_block block call)) eops)
    ∧ (∀ c1 c2 : Call,
      (∀ host ∈ self.hosts, host.matches_block block c1 = host.matches_block block c2) →
      self.process_trigger logger block (EthereumTrigger.block c1) eops
        = self.process_trigger logger block (EthereumTrigger.block c2) eops) := by
  constructor
  · intro call
    simp only [SubgraphInstance.process_trigger]
    rw [specThread_eq_foldlM]
  · intro c1 c2 hmatch
    simp only [SubgraphInstance.process_trigger]
    rw [List.filter_congr hmatch]

/-- C8 amended-claim witness: two payloads selecting the same host yield
the same dispatch result. -/
theorem process_block_args_no_payload_witness :
    instOne.process_trigger 0 goodBlock (EthereumTrigger.block 0) []
      = instOne.process_trigger 0 goodBlock (EthereumTrigger.block 1) [] :=
  (process_block_args_no_payload instOne 0 goodBlock []).2 0 1
    (by
      intro host hhost
      have hh : host = hostA := List.mem_singleton.mp hhost
      rw [hh]
      rfl)

/-- C9: dispatch is deterministic — two runs with hosts whose predicates
and processing steps behave as equal functions of their inputs, pointwise
equal block contexts, the same trigger and the same input mutation list
produce the same outcome. -/
theorem process_trigger_deterministic
    (i1 i2 : SubgraphInstance Logger Log Call Tx EOp) (logger : Logger)
    (b1 b2 : EthereumBlock Log Call Tx)
    (trigger : EthereumTrigger Log Call) (eops : List EOp)
    (hh : List.Forall₂ HostEquiv i1.hosts i2.hosts) (hb : BlockEquiv b1 b2) :
    i1.process_trigger logger b1 trigger eops
      = i2.process_trigger logger b2 trigger eops := by
  have hbeq : b1 = b2 := by
    cases b1 with
    | mk f1 g1 =>
      cases b2 with
      | mk f2 g2 =>
        obtain ⟨hbl, hbc⟩ := hb
        have h1 : f1 = f2 := funext hbl
        have h2 : g1 = g2 := funext hbc
        rw [h1, h2]
  have hosteq : ∀ a b : RuntimeHost Logger (EthereumBlock Log Call Tx) Tx Log Call EOp,
      HostEquiv a b → a = b := by
    intro a b hab
    cases a with
    | mk ml mc mb pl pc pb =>
      cases b with
      | mk ml2 mc2 mb2 pl2 pc2 pb2 =>
        obtain ⟨e1, e2, e3, e4, e5, e6⟩ := hab
        have h1 : ml = ml2 := funext e1
        have h2 : mc = mc2 := funext e2
        have h3 : mb = mb2 := funext (fun x => funext (fun y => e3 x y))
        have h4 : pl = pl2 := funext (fun lg => funext (fun bk => funext (fun t =>
          funext (fun l => funext (fun ops => e4 lg bk t l ops)))))
        have h5 : pc = pc2 := funext (fun lg => funext (fun bk => funext (fun t =>
          funext (fun c => funext (fun ops => e5 lg bk t c ops)))))
        have h6 : pb = pb2 := funext (fun lg => funext (fun bk =>
          funext (fun ops => e6 lg bk ops)))
        rw [h1, h2, h3, h4, h5, h6]
  have hlist : i1.hosts = i2.hosts := by
    have key : ∀ (l1 l2 : List (RuntimeHost Logger (EthereumBlock Log Call Tx) Tx Log Call EOp)),
        List.Forall₂ HostEquiv l1 l2 → l1 = l2 := by
      intro l1 l2 h12
      induction h12 with
      | nil => rfl
      | cons hab htail ih => rw [hosteq _ _ hab, ih]
    exact key _ _ hh
  cases i1 with
  | mk hosts1 =>
    cases i2 with
    | mk hosts2 =>
      have hl : hosts1 = hosts2 := hlist
      rw [hbeq, hl]

/-- C9 witness: two instances whose single hosts are written differently
but behave identically, over two pointwise-equal block contexts, dispatch
the same log trigger to the same result. -/
theorem process_trigger_deterministic_witness :
    instOne.process_trigger 0 goodBlock (EthereumTrigger.log 5) []
      = SubgraphInstance.process_trigger ⟨[hostA2]⟩ 0 goodBlock2
          (EthereumTrigger.log 5) [] :=
  process_trigger_deterministic instOne ⟨[hostA2]⟩ 0 goodBlock goodBlock2
    (EthereumTrigger.log 5) []
    (List.Forall₂.cons
      ⟨fun _ => rfl, fun _ => rfl, fun _ _ => rfl,
        fun _ _ _ _ _ => rfl, fun _ _ _ _ _ => rfl, fun _ _ _ => rfl⟩
      List.Forall₂.nil)
    ⟨fun _ => rfl, fun _ => rfl⟩

/-- C10: a trigger matching no host — with its transaction resolvable where
one is required — dispatches successfully to the unchanged input mutation
list; in particular an instance owning zero hosts returns the input list
for every Block trigger and every resolvable Log or Call trigger. -/
theorem process_trigger_no_match_id
    (self : SubgraphInstance Logger Log Call Tx EOp) (logger : Logger)
    (block : EthereumBlock Log Call Tx) (eops : List EOp) :
    (∀ (log : Log) (t : Tx), block.transaction_for_log log = some t →
      self.hosts.filter (fun host => host.matches_log log) = [] →
      self.process_trigger logger block (EthereumTrigger.log log) eops
        = Except.ok eops)
    ∧ (∀ (call : Call) (t : Tx), block.transaction_for_call call = some t →
      self.hosts.filter (fun host => host.matches_call call) = [] →
      self.process_trigger logger block (EthereumTrigger.call call) eops
        = Except.ok eops)
    ∧ (∀ call : Call,
      self.hosts.filter (fun host => host.matches_block block call) = [] →
      self.process_trigger logger block (EthereumTrigger.block call) eops
        = Except.ok eops)
    ∧ (self.hosts = [] →
      (∀ (log : Log) (t : Tx), block.transaction_for_log log = some t →
        self.process_trigger logger block (EthereumTrigger.log log) eops
          = Except.ok eops)
      ∧ (∀ (call : Call) (t : Tx), block.transaction_for_call call = some t →
        self.process_trigger logger block (EthereumTrigger.call call) eops
          = Except.ok eops)
      ∧ (∀ call : Call,
        self.process_trigger logger block (EthereumTrigger.block call) eops
          = Except.ok eops)) := by
  have hlog : ∀ (log : Log) (t : Tx), block.transaction_for_log log = some t →
      self.hosts.filter (fun host => host.matches_log log) = [] →
      self.process_trigger logger block (EthereumTrigger.log log) eops
        = Except.ok eops := by
    intro log t ht hfil
    simp only [SubgraphInstance.process_trigger]
    rw [ht, hfil]
    rfl
  have hcall : ∀ (call : Call) (t : Tx), block.transaction_for_call call = some t →
      self.hosts.filter (fun host => host.matches_call call) = [] →
      self.process_trigger logger block (EthereumTrigger.call call) eops
        = Except.ok eops := by
    intro call t ht hfil
    simp only [SubgraphInstance.process_trigger]
    rw [ht, hfil]
    rfl
  have hblock : ∀ call : Call,
      self.hosts.filter (fun host => host.matches_block block call) = [] →
      self.process_trigger logger block (EthereumTrigger.block call) eops
        = Except.ok eops := by
    intro call hfil
    simp only [SubgraphInstance.process_trigger]
    rw [hfil]
    rfl
  refine ⟨hlog, hcall, hblock, fun hnil => ⟨?_, ?_, ?_⟩⟩
  · intro log t ht
    exact hlog log t ht (by rw [hnil]; rfl)
  · intro call t ht
    exact hcall call t ht (by rw [hnil]; rfl)
  · intro call
    exact hblock call (by rw [hnil]; rfl)

/-- C10 witness: a host interested in nothing leaves the input list
unchanged on a resolvable log trigger, and the zero-host instance leaves
it unchanged on a block trigger. -/
theorem process_trigger_no_match_id_witness :
    instNone.process_trigger 0 goodBlock (EthereumTrigger.log 5) [9]
      = Except.ok [9]
    ∧ emptyInst.process_trigger 0 goodBlock (EthereumTrigger.block 0) [9]
      = Except.ok [9] :=
  ⟨(process_trigger_no_match_id instNone 0 goodBlock [9]).1 5 7 rfl rfl,
    ((process_trigger_no_match_id emptyInst 0 goodBlock [9]).2.2.2 rfl).2.2 0⟩

end GraphNode
